import Mathlib

/-!
# Verification of the My_Voice issue-intake and categorization pipeline

Shallow embedding of `src/app.py` (a Flask backend for a citizen
issue-reporting app).  Pure helpers (`get_category_from_text`, the label
remap of `get_category_from_image`) are embedded as Lean functions;
effectful steps (HTTP fetch, YOLO inference, Whisper transcription, the
Supabase storage calls) are embedded by passing their outcome explicitly
as a parameter, and the temporary-file side effect is embedded as an
explicit count of temp files left behind when the call returns.

Strings are Lean `String`s; Python's `needle in haystack` substring test
is embedded as infix testing on the underlying character lists, and
Python's `str.lower()` as `String.map Char.toLower` (the inputs of
interest are ASCII).  Confidence scores (Python floats in `[0,1]`) are
embedded as rationals: every claim about them only uses their linear
order.
-/

namespace MyVoice

/-- Python's substring test `pat in s` (`app.py` uses it on lowercased
text throughout). -/
def pyContains (s pat : String) : Bool := decide (pat.data <:+: s.data)

/-- Python's `str.lower()` (ASCII case folding), as a character-wise map. -/
def pyLower (s : String) : String := ⟨s.data.map Char.toLower⟩

/-- `get_category_from_text` (`src/app.py` lines 131-142): ordered
keyword policy on the lowercased input, first matching rule wins. -/
def get_category_from_text (text_description : String) : String :=
  let text_lower := pyLower text_description
  if pyContains text_lower "pothole" || pyContains text_lower "road broken" then
    "Pothole"
  else if pyContains text_lower "streetlight" || pyContains text_lower "light"
      || pyContains text_lower "lamp" then
    "Streetlight Issue"
  else if pyContains text_lower "trash" || pyContains text_lower "garbage" then
    "Waste Management"
  else
    "General Inquiry"

/-- The spec's Text Categorizer (§4.4), written from the spec's words:
case-insensitive substring match, rules evaluated in the spec's exact
priority order, first matching rule wins. -/
def specTextCategorizer (text : String) : String :=
  if "pothole".data <:+: (pyLower text).data ∨ "road broken".data <:+: (pyLower text).data then
    "Pothole"
  else if "streetlight".data <:+: (pyLower text).data ∨ "light".data <:+: (pyLower text).data
      ∨ "lamp".data <:+: (pyLower text).data then
    "Streetlight Issue"
  else if "trash".data <:+: (pyLower text).data ∨ "garbage".data <:+: (pyLower text).data then
    "Waste Management"
  else
    "General Inquiry"

/-- One YOLO detection box: its confidence (`boxes.conf[i]`, a float we
embed as a rational — only its linear order matters) and its class index
(`boxes.cls[i]`). -/
structure Detection where
  conf : ℚ
  cls : ℕ
deriving DecidableEq

/-- Python's `max` over a nonempty list (`max(confs)` in `app.py` line 73);
`0` is returned on `[]`, a case the caller never reaches. -/
def pyMax : List ℚ → ℚ
  | [] => 0
  | x :: xs => xs.foldl max x

/-- `names.get(class_idx, str(class_idx))` (`app.py` line 88): resolve the
class index through the model's label table, falling back to the decimal
rendering of the index. -/
def resolveLabel (names : ℕ → Option String) (class_idx : ℕ) : String :=
  (names class_idx).getD (toString class_idx)

/-- The post-hoc keyword remap of `get_category_from_image`
(`app.py` lines 96-102): lowercase the resolved label, map it to
`"Pothole"` or `"Social Issue"` on a substring hit, else pass it through. -/
def remapLabel (top_category : String) : String :=
  let top_lower := pyLower top_category
  if pyContains top_lower "pothole" then "Pothole"
  else if pyContains top_lower "person" then "Social Issue"
  else top_category

/-- The detection-processing tail of `get_category_from_image`
(`app.py` lines 51-102), given the model's detections and label table.
An empty detection list is the `not results` / `not boxes` case (line 51
and line 58, both returning `"Uncategorized Image"`); otherwise
`top_idx = confs.index(max(confs))` (first index attaining the maximum),
`class_idx = clss[top_idx]`, and the resolved label is remapped. -/
def imageCategoryOfDets (names : ℕ → Option String) (dets : List Detection) : String :=
  if dets = [] then "Uncategorized Image"
  else
    let confs := dets.map Detection.conf
    let clss := dets.map Detection.cls
    let top_idx := confs.findIdx (· = pyMax confs)
    let class_idx := clss.getD top_idx 0
    remapLabel (resolveLabel names class_idx)

/-- Where a run of `get_category_from_image` / `get_text_from_audio` can
end up: the HTTP fetch raises (`requests.get` / `raise_for_status`, before
any temp file exists), the model raises (`yolo_model.predict` /
`whisper_model.transcribe`, after the temp file was written), or the model
returns normally. -/
inductive ImageOutcome where
  | fetchFail
  | modelFail
  | success (dets : List Detection)

/-- `get_category_from_image` (`app.py` lines 27-106) as an explicit-state
function: the result pairs the returned category with the number of
temporary files left on disk when the function returns.  A fetch failure
is caught before the temp file is written (0 left); a model failure jumps
to the `except` handler at line 104 *without* reaching the `os.remove` at
line 46 (1 left); on a normal model return the file is removed right away
(0 left). -/
def get_category_from_image (names : ℕ → Option String) :
    ImageOutcome → String × ℕ
  | .fetchFail => ("Uncategorized", 0)
  | .modelFail => ("Uncategorized", 1)
  | .success dets => (imageCategoryOfDets names dets, 0)

/-- Outcomes of a `get_text_from_audio` run: fetch raises before the temp
file exists; `transcribe` raises after it was written; or `transcribe`
returns a dict whose text entry is `text` (`none` when the key is
missing, in which case `result.get` falls back to the empty string). -/
inductive AudioOutcome where
  | fetchFail
  | modelFail
  | success (text : Option String)

/-- `get_text_from_audio` (`app.py` lines 109-129) as an explicit-state
function: the returned transcript paired with the number of temporary
files left on disk at return.  Any failure is caught and mapped to the
empty string (the function never propagates an exception); a model
failure skips the `os.remove` at line 123, leaving the temp file behind. -/
def get_text_from_audio : AudioOutcome → String × ℕ
  | .fetchFail => ("", 0)
  | .modelFail => ("", 1)
  | .success text => (text.getD "", 0)

/-- The record assembled by `create_issue` and handed to
the issues-table insert call (`app.py` lines 194-202).  `lat`/`lng`
are passed through untouched and embedded as opaque optional rationals. -/
structure InsertData where
  description_text : String
  lat : Option ℚ
  lng : Option ℚ
  media_url : Option String
  media_type : Option String
  status : String
  category : String
deriving DecidableEq

/-- The intake/categorization body of `create_issue` (`app.py` lines
166-217): dispatch on `media_type`, derive `ai_category`, rewrite the
description on the audio/video path, and assemble the insert record.
The request-body fields arrive as parameters (the `data.get` reads of
lines 172-174; `description_text` already carries the empty default);
the classifier/transcriber outcomes arrive as explicit parameters of the
two helper embeddings above. -/
def create_issue (names : ℕ → Option String) (imgOut : ImageOutcome)
    (audOut : AudioOutcome) (media_url : Option String)
    (media_type : Option String) (description_text : String)
    (lat lng : Option ℚ) : InsertData :=
  let ai_category := "Uncategorized"
  let result :=
    if media_type = some "image" then
      ((get_category_from_image names imgOut).1, description_text)
    else if media_type = some "audio" ∨ media_type = some "video" then
      let ai_transcription := (get_text_from_audio audOut).1
      (get_category_from_text ai_transcription,
        "User Text: " ++ description_text ++ "\n\nAudio Transcription: " ++ ai_transcription)
    else if description_text ≠ "" then
      (get_category_from_text description_text, description_text)
    else
      (ai_category, description_text)
  { description_text := result.2
    lat := lat
    lng := lng
    media_url := media_url
    media_type := media_type
    status := "Pending"
    category := result.1 }

/-- `get_issues` (`app.py` lines 219-229).  The handler performs no
authentication or role check — `role` is accepted here only so that the
role-gating claim can be stated — and always issues exactly one storage
select.  The result pairs the HTTP status with the number of storage
reads performed: `(200, 1)` when the select succeeds, `(500, 1)` when it
raises. -/
def get_issues (role : String) (store : Except Unit (List InsertData)) : ℕ × ℕ :=
  match store with
  | .ok _ => (200, 1)
  | .error _ => (500, 1)

/-- `update_issue` (`app.py` lines 231-257).  The JSON body is embedded
as an association list over an arbitrary value type; the membership test
`status in data` and the lookup `data.get` become `List.find?` on the
key.  The result pairs
the HTTP status with the `update_data` record sent to
`supabase...update(update_data)` — `none` when no storage mutation is
executed (the 400 path).  `storeOk` is whether the storage update call
returns a nonempty `response.data` (line 252 raises otherwise → 500). -/
def update_issue {α : Type} (body : List (String × α)) (storeOk : Bool) :
    ℕ × Option (List (String × α)) :=
  let update_data : List (String × α) :=
    (match body.find? (fun kv => kv.1 == "status") with
      | some kv => [("status", kv.2)]
      | none => [])
    ++ (match body.find? (fun kv => kv.1 == "assigned_to") with
      | some kv => [("assigned_to", kv.2)]
      | none => [])
  if update_data.isEmpty then (400, none)
  else if storeOk then (200, some update_data)
  else (500, some update_data)

/-- A concrete label table used to instantiate the universally quantified
theorems below on executable inputs. -/
def sampleNames : ℕ → Option String :=
  fun n => if n = 7 then some "person" else none

/-- A concrete detection list used to instantiate the universally
quantified theorems below on executable inputs. -/
def sampleDets : List Detection :=
  [⟨1/2, 3⟩, ⟨3/4, 7⟩, ⟨3/4, 9⟩]

end MyVoice

namespace MyVoice

theorem pyContains_iff (s pat : String) : pyContains s pat = true ↔ pat.data <:+: s.data := by
  simp [pyContains]

theorem get_category_from_text_eq_spec (t : String) :
    get_category_from_text t = specTextCategorizer t := by
  simp only [get_category_from_text, specTextCategorizer, Bool.or_eq_true, pyContains_iff,
    or_assoc]

theorem get_category_from_text_mem (t : String) :
    get_category_from_text t ∈
      (["Pothole", "Streetlight Issue", "Waste Management", "General Inquiry"] : List String) := by
  simp only [get_category_from_text]
  split_ifs <;> simp

theorem foldl_max_mem (xs : List ℚ) (x : ℚ) : xs.foldl max x ∈ x :: xs := by
  induction xs generalizing x with
  | nil => simp
  | cons y ys ih =>
    rw [List.foldl_cons]
    rcases List.mem_cons.mp (ih (max x y)) with he | he
    · rcases max_choice x y with hm | hm
      · rw [he, hm]; exact List.mem_cons_self _ _
      · rw [he, hm]; exact List.mem_cons_of_mem _ (List.mem_cons_self _ _)
    · exact List.mem_cons_of_mem _ (List.mem_cons_of_mem _ he)

theorem le_foldl_max (xs : List ℚ) (x : ℚ) : x ≤ xs.foldl max x := by
  induction xs generalizing x with
  | nil => simp
  | cons y ys ih => exact le_trans (le_max_left x y) (ih (max x y))

theorem mem_le_foldl_max (xs : List ℚ) (x a : ℚ) (ha : a ∈ xs) : a ≤ xs.foldl max x := by
  induction xs generalizing x with
  | nil => simp at ha
  | cons y ys ih =>
    rcases List.mem_cons.mp ha with rfl | hmem
    · exact le_trans (le_max_right x a) (le_foldl_max ys (max x a))
    · exact ih (max x y) hmem

theorem pyMax_mem (l : List ℚ) (h : l ≠ []) : pyMax l ∈ l := by
  cases l with
  | nil => exact absurd rfl h
  | cons x xs => exact foldl_max_mem xs x

theorem le_pyMax (l : List ℚ) (a : ℚ) (ha : a ∈ l) : a ≤ pyMax l := by
  cases l with
  | nil => simp at ha
  | cons x xs =>
    rcases List.mem_cons.mp ha with rfl | hmem
    · exact le_foldl_max xs a
    · exact mem_le_foldl_max xs x a hmem

theorem imageCategoryOfDets_spec (names : ℕ → Option String) (dets : List Detection)
    (h : dets ≠ []) :
    ∃ i, ∃ hi : i < dets.length,
      imageCategoryOfDets names dets =
        remapLabel (resolveLabel names (dets.get ⟨i, hi⟩).cls) ∧
      (∀ j (hj : j < dets.length), (dets.get ⟨j, hj⟩).conf ≤ (dets.get ⟨i, hi⟩).conf) ∧
      (∀ j (hj : j < dets.length),
        (dets.get ⟨j, hj⟩).conf = (dets.get ⟨i, hi⟩).conf → i ≤ j) := by
  classical
  set confs := dets.map Detection.conf with hconfs
  set p : ℚ → Bool := fun c => decide (c = pyMax confs) with hp
  have hconfs_ne : confs ≠ [] := by
    simpa [hconfs, List.map_eq_nil_iff] using h
  have hmem : pyMax confs ∈ confs := pyMax_mem confs hconfs_ne
  have hex : ∃ c ∈ confs, p c = true := ⟨pyMax confs, hmem, by simp [hp]⟩
  have hlen : confs.length = dets.length := by simp [hconfs]
  have hilt : confs.findIdx p < confs.length := List.findIdx_lt_length_of_exists hex
  have hiltd : confs.findIdx p < dets.length := hlen ▸ hilt
  have hget : ∀ (j : ℕ) (hj : j < dets.length),
      confs.get ⟨j, hlen ▸ hj⟩ = (dets.get ⟨j, hj⟩).conf := by
    intro j hj
    simp [hconfs, List.get_eq_getElem, List.getElem_map]
  have hci : confs.get ⟨confs.findIdx p, hilt⟩ = pyMax confs := by
    have h2 : p (confs.get ⟨confs.findIdx p, hilt⟩) = true := by
      simpa [List.get_eq_getElem] using @List.findIdx_getElem _ p confs hilt
    simpa [hp] using h2
  refine ⟨confs.findIdx p, hiltd, ?_, ?_, ?_⟩
  · have hclslen : confs.findIdx p < (dets.map Detection.cls).length := by
      simpa using hiltd
    have hcls : (dets.map Detection.cls).getD (confs.findIdx p) 0 =
        (dets.get ⟨confs.findIdx p, hiltd⟩).cls := by
      rw [List.getD_eq_getElem _ _ hclslen]
      simp [List.get_eq_getElem, List.getElem_map]
    simp only [imageCategoryOfDets, if_neg h]
    rw [← hconfs, ← hp, hcls]
  · intro j hj
    have h1 : (dets.get ⟨j, hj⟩).conf ≤ pyMax confs := by
      refine le_pyMax confs _ ?_
      rw [← hget j hj]
      exact List.get_mem _ _ _
    calc (dets.get ⟨j, hj⟩).conf ≤ pyMax confs := h1
      _ = confs.get ⟨confs.findIdx p, hilt⟩ := hci.symm
      _ = (dets.get ⟨confs.findIdx p, hiltd⟩).conf := hget _ hiltd
  · intro j hj heq
    by_contra hlt
    push_neg at hlt
    have hjc : j < confs.length := hlen ▸ hj
    have hne : p (confs.get ⟨j, hjc⟩) = false := by
      simpa [List.get_eq_getElem] using @List.not_of_lt_findIdx _ p confs j hlt
    have hmax : confs.get ⟨j, hjc⟩ = pyMax confs := by
      have hj1 : confs.get ⟨j, hjc⟩ = (dets.get ⟨j, hj⟩).conf := hget j hj
      rw [hj1, heq, ← hget _ hiltd, hci]
    rw [List.get_eq_getElem] at hmax
    simp [hp, hmax] at hne

theorem pyContains_append_r (s post pat : String) (h : pyContains s pat = true) :
    pyContains (s ++ post) pat = true := by
  rw [pyContains_iff] at h ⊢
  rcases h with ⟨u, v, huv⟩
  refine ⟨u, v ++ post.data, ?_⟩
  rw [String.data_append, ← huv]
  simp [List.append_assoc]

theorem pyContains_append_l (pre s pat : String) (h : pyContains s pat = true) :
    pyContains (pre ++ s) pat = true := by
  rw [pyContains_iff] at h ⊢
  rcases h with ⟨u, v, huv⟩
  refine ⟨pre.data ++ u, v, ?_⟩
  rw [String.data_append, ← huv]
  simp [List.append_assoc]

theorem create_issue_audio_video (names : ℕ → Option String) (imgOut : ImageOutcome)
    (audOut : AudioOutcome) (url mt : Option String) (d : String) (lat lng : Option ℚ)
    (h : mt = some "audio" ∨ mt = some "video") :
    create_issue names imgOut audOut url mt d lat lng =
      { description_text :=
          "User Text: " ++ d ++ "\n\nAudio Transcription: " ++ (get_text_from_audio audOut).1
        lat := lat
        lng := lng
        media_url := url
        media_type := mt
        status := "Pending"
        category := get_category_from_text (get_text_from_audio audOut).1 } := by
  have hne : ¬ mt = some "image" := by rcases h with rfl | rfl <;> simp
  simp only [create_issue, if_neg hne, if_pos h]

/-- C1 counterexample: for the audio submission with user text
`"pothole"` and an empty transcript, `create_issue` computes the category
from the transcript alone, yielding `"General Inquiry"`, while the Text
Categorizer applied to the composed final description would yield
`"Pothole"`. -/
theorem audio_category_ignores_user_text :
    (create_issue (fun _ => none) ImageOutcome.fetchFail (AudioOutcome.success (some ""))
        none (some "audio") "pothole" none none).category = "General Inquiry" ∧
    (create_issue (fun _ => none) ImageOutcome.fetchFail (AudioOutcome.success (some ""))
        none (some "audio") "pothole" none none).description_text =
      "User Text: pothole\n\nAudio Transcription: " ∧
    get_category_from_text "User Text: pothole\n\nAudio Transcription: " = "Pothole" ∧
    ("General Inquiry" : String) ≠ "Pothole" :=
  ⟨by decide, by decide, by decide, by decide⟩

/-- C1 (amended): for every audio or video submission the final category
is the Text Categorizer applied to the transcript alone; the composed
description (user text plus transcript) is only stored, not
re-categorized. -/
theorem audio_category_from_transcript_alone (names : ℕ → Option String)
    (imgOut : ImageOutcome) (audOut : AudioOutcome) (url mt : Option String)
    (d : String) (lat lng : Option ℚ)
    (h : mt = some "audio" ∨ mt = some "video") :
    (create_issue names imgOut audOut url mt d lat lng).category =
      get_category_from_text (get_text_from_audio audOut).1 := by
  rw [create_issue_audio_video names imgOut audOut url mt d lat lng h]

/-- C1 witness: the amended theorem applied to a concrete audio
submission. -/
theorem audio_category_from_transcript_alone_witness :
    ((some "audio" : Option String) = some "audio" ∨
      (some "audio" : Option String) = some "video") ∧
    (create_issue (fun _ => none) ImageOutcome.fetchFail
        (AudioOutcome.success (some "big pothole")) none (some "audio") "" none none).category =
      get_category_from_text (get_text_from_audio (AudioOutcome.success (some "big pothole"))).1 :=
  ⟨Or.inl rfl,
    audio_category_from_transcript_alone (fun _ => none) ImageOutcome.fetchFail
      (AudioOutcome.success (some "big pothole")) none (some "audio") "" none none (Or.inl rfl)⟩

/-- C2: the Text Categorizer is a pure total function agreeing with the
ordered keyword policy of the spec (first matching rule in priority
order, case-insensitive substring match), always returns one of the four
labels, and maps `"streetlight is out, pothole nearby"` to `"Pothole"`
and the empty string to `"General Inquiry"`. -/
theorem text_categorizer_total_priority :
    (∀ t, get_category_from_text t = specTextCategorizer t) ∧
    (∀ t, get_category_from_text t ∈
      (["Pothole", "Streetlight Issue", "Waste Management", "General Inquiry"] : List String)) ∧
    get_category_from_text "streetlight is out, pothole nearby" = "Pothole" ∧
    get_category_from_text "" = "General Inquiry" :=
  ⟨get_category_from_text_eq_spec, get_category_from_text_mem, by decide, by decide⟩

/-- C3: a fetch or inference failure yields exactly `"Uncategorized"`, a
successful run with zero detections yields exactly
`"Uncategorized Image"`, the two strings are distinct, and the category
stored for an image submission is exactly the classifier result. -/
theorem image_failure_vs_no_detection (names : ℕ → Option String)
    (imgOut : ImageOutcome) (audOut : AudioOutcome) (url : Option String)
    (d : String) (lat lng : Option ℚ) :
    (get_category_from_image names ImageOutcome.fetchFail).1 = "Uncategorized" ∧
    (get_category_from_image names ImageOutcome.modelFail).1 = "Uncategorized" ∧
    (get_category_from_image names (ImageOutcome.success [])).1 = "Uncategorized Image" ∧
    ("Uncategorized" : String) ≠ "Uncategorized Image" ∧
    (create_issue names imgOut audOut url (some "image") d lat lng).category =
      (get_category_from_image names imgOut).1 := by
  refine ⟨rfl, rfl, by simp [get_category_from_image, imageCategoryOfDets], by decide, ?_⟩
  simp [create_issue]

/-- C5: for every audio or video submission, the stored description text
contains both literal markers, whatever the user text and the transcript
are (either may be empty). -/
theorem audio_description_contains_markers (names : ℕ → Option String)
    (imgOut : ImageOutcome) (audOut : AudioOutcome) (url mt : Option String)
    (d : String) (lat lng : Option ℚ)
    (h : mt = some "audio" ∨ mt = some "video") :
    pyContains (create_issue names imgOut audOut url mt d lat lng).description_text
      "User Text:" = true ∧
    pyContains (create_issue names imgOut audOut url mt d lat lng).description_text
      "Audio Transcription:" = true := by
  rw [create_issue_audio_video names imgOut audOut url mt d lat lng h]
  constructor
  · exact pyContains_append_r _ _ _ (pyContains_append_r _ _ _
      (pyContains_append_r _ _ _ (by decide)))
  · exact pyContains_append_r _ _ _ (pyContains_append_l _ _ _ (by decide))

/-- C5 witness: the marker property at a concrete audio submission with
empty user text and empty transcript. -/
theorem audio_description_contains_markers_witness :
    ((some "audio" : Option String) = some "audio" ∨
      (some "audio" : Option String) = some "video") ∧
    pyContains (create_issue (fun _ => none) ImageOutcome.fetchFail AudioOutcome.fetchFail
        none (some "audio") "" none none).description_text "User Text:" = true ∧
    pyContains (create_issue (fun _ => none) ImageOutcome.fetchFail AudioOutcome.fetchFail
        none (some "audio") "" none none).description_text "Audio Transcription:" = true :=
  ⟨Or.inl rfl,
    audio_description_contains_markers (fun _ => none) ImageOutcome.fetchFail
      AudioOutcome.fetchFail none (some "audio") "" none none (Or.inl rfl)⟩

/-- C4 counterexample: a request with role `"citizen"` (not admin) is not
rejected with 403 — the handler returns 200 and performs a storage
read. -/
theorem get_issues_nonadmin_not_rejected :
    ("citizen" : String) ≠ "admin" ∧
    (get_issues "citizen" (Except.ok ([] : List InsertData))).1 = 200 ∧
    (get_issues "citizen" (Except.ok ([] : List InsertData))).2 = 1 :=
  ⟨by decide, rfl, rfl⟩

/-- C4 (amended): the `get_issues` handler performs no role check at all;
for every role it performs exactly one storage read and returns 200 on
storage success and 500 on storage failure, behaving identically for all
roles. -/
theorem get_issues_ignores_role (role role2 : String) (issues : List InsertData)
    (e : Unit) (store : Except Unit (List InsertData)) :
    get_issues role (Except.ok issues) = (200, 1) ∧
    get_issues role (Except.error e) = (500, 1) ∧
    get_issues role store = get_issues role2 store := by
  refine ⟨rfl, rfl, ?_⟩
  cases store <;> rfl

/-- C6: on a non-empty detection list the winning detection attains the
maximum confidence and is the first detection to do so, and the output is
the post-hoc remap (pothole / person substring, case-insensitive) of its
resolved label, with the raw label passed through when neither substring
occurs. -/
theorem image_top_detection_remap (names : ℕ → Option String) (dets : List Detection)
    (h : dets ≠ []) :
    (∃ i, ∃ hi : i < dets.length,
      imageCategoryOfDets names dets =
        remapLabel (resolveLabel names (dets.get ⟨i, hi⟩).cls) ∧
      (∀ j (hj : j < dets.length), (dets.get ⟨j, hj⟩).conf ≤ (dets.get ⟨i, hi⟩).conf) ∧
      (∀ j (hj : j < dets.length),
        (dets.get ⟨j, hj⟩).conf = (dets.get ⟨i, hi⟩).conf → i ≤ j)) ∧
    (∀ label, (pyContains (pyLower label) "pothole" = true → remapLabel label = "Pothole") ∧
      (pyContains (pyLower label) "pothole" = false →
        pyContains (pyLower label) "person" = true → remapLabel label = "Social Issue") ∧
      (pyContains (pyLower label) "pothole" = false →
        pyContains (pyLower label) "person" = false → remapLabel label = label)) := by
  refine ⟨imageCategoryOfDets_spec names dets h, ?_⟩
  intro label
  refine ⟨?_, ?_, ?_⟩
  · intro h1; simp [remapLabel, h1]
  · intro h1 h2; simp [remapLabel, h1, h2]
  · intro h1 h2; simp [remapLabel, h1, h2]

/-- C6 witness: the selection and remap property at a concrete detection
list whose maximum confidence is attained twice. -/
theorem image_top_detection_remap_witness :
    sampleDets ≠ [] ∧
    ((∃ i, ∃ hi : i < sampleDets.length,
      imageCategoryOfDets sampleNames sampleDets =
        remapLabel (resolveLabel sampleNames (sampleDets.get ⟨i, hi⟩).cls) ∧
      (∀ j (hj : j < sampleDets.length),
        (sampleDets.get ⟨j, hj⟩).conf ≤ (sampleDets.get ⟨i, hi⟩).conf) ∧
      (∀ j (hj : j < sampleDets.length),
        (sampleDets.get ⟨j, hj⟩).conf = (sampleDets.get ⟨i, hi⟩).conf → i ≤ j)) ∧
    (∀ label, (pyContains (pyLower label) "pothole" = true → remapLabel label = "Pothole") ∧
      (pyContains (pyLower label) "pothole" = false →
        pyContains (pyLower label) "person" = true → remapLabel label = "Social Issue") ∧
      (pyContains (pyLower label) "pothole" = false →
        pyContains (pyLower label) "person" = false → remapLabel label = label))) :=
  ⟨by decide, image_top_detection_remap sampleNames sampleDets (by decide)⟩

/-- C7: an update request whose body holds neither the status key nor the
assigned-to key is answered with 400 and no update is sent to storage. -/
theorem update_issue_no_valid_fields_400 {α : Type} (body : List (String × α))
    (storeOk : Bool)
    (h : ∀ kv ∈ body, kv.1 ≠ "status" ∧ kv.1 ≠ "assigned_to") :
    update_issue body storeOk = (400, none) := by
  have hs : body.find? (fun kv => kv.1 == "status") = none := by
    rw [List.find?_eq_none]
    intro kv hkv
    simpa using (h kv hkv).1
  have ha : body.find? (fun kv => kv.1 == "assigned_to") = none := by
    rw [List.find?_eq_none]
    intro kv hkv
    simpa using (h kv hkv).2
  simp [update_issue, hs, ha]

/-- C7 witness: the 400-and-no-mutation property at a concrete body with
one unrecognized field. -/
theorem update_issue_no_valid_fields_400_witness :
    (∀ kv ∈ ([("note", "hello")] : List (String × String)),
      kv.1 ≠ "status" ∧ kv.1 ≠ "assigned_to") ∧
    update_issue ([("note", "hello")] : List (String × String)) true = (400, none) :=
  ⟨by decide, update_issue_no_valid_fields_400 [("note", "hello")] true (by decide)⟩

/-- C8: the Speech Transcriber embedding is total; it returns the model
transcript on success and the empty string on every failure (fetch error,
model error, missing text key), so an empty transcript is
indistinguishable from a hard failure. -/
theorem transcriber_empty_on_failure (t : String) :
    (get_text_from_audio (AudioOutcome.success (some t))).1 = t ∧
    (get_text_from_audio AudioOutcome.fetchFail).1 = "" ∧
    (get_text_from_audio AudioOutcome.modelFail).1 = "" ∧
    (get_text_from_audio (AudioOutcome.success none)).1 = "" ∧
    (get_text_from_audio AudioOutcome.fetchFail).1 =
      (get_text_from_audio (AudioOutcome.success (some ""))).1 :=
  ⟨rfl, rfl, rfl, rfl, rfl⟩

/-- C9: contrary to the claim, a model failure after the temporary file
has been written leaves it on disk (the removal is skipped on the
exception path), in both the image and the audio pipeline; the fetch
failure and success paths do clean up. -/
theorem temp_file_leaked_on_model_failure (names : ℕ → Option String)
    (dets : List Detection) (t : Option String) :
    (get_category_from_image names ImageOutcome.modelFail).2 = 1 ∧
    (get_text_from_audio AudioOutcome.modelFail).2 = 1 ∧
    (get_category_from_image names ImageOutcome.fetchFail).2 = 0 ∧
    (get_category_from_image names (ImageOutcome.success dets)).2 = 0 ∧
    (get_text_from_audio AudioOutcome.fetchFail).2 = 0 ∧
    (get_text_from_audio (AudioOutcome.success t)).2 = 0 :=
  ⟨rfl, rfl, rfl, rfl, rfl, rfl⟩

/-- C10: whenever `update_issue` sends an update to storage, that update
holds only the status and assigned-to keys, each key is written exactly
when it occurs in the request body, and each written value is the one the
body holds for that key; every other body field is ignored. -/
theorem update_issue_only_status_assigned {α : Type} (body : List (String × α))
    (storeOk : Bool) (u : List (String × α))
    (h : (update_issue body storeOk).2 = some u) :
    (∀ kv ∈ u, kv.1 = "status" ∨ kv.1 = "assigned_to") ∧
    ((∃ v, ("status", v) ∈ u) ↔ ∃ kv ∈ body, kv.1 = "status") ∧
    ((∃ v, ("assigned_to", v) ∈ u) ↔ ∃ kv ∈ body, kv.1 = "assigned_to") ∧
    (∀ v, ("status", v) ∈ u →
      body.find? (fun kv => kv.1 == "status") = some ("status", v)) ∧
    (∀ v, ("assigned_to", v) ∈ u →
      body.find? (fun kv => kv.1 == "assigned_to") = some ("assigned_to", v)) := by
  simp only [update_issue] at h
  rcases hs : body.find? (fun kv => kv.1 == "status") with _ | ⟨sk, sv⟩ <;>
    rcases ha : body.find? (fun kv => kv.1 == "assigned_to") with _ | ⟨ak, av⟩ <;>
    rw [hs, ha] at h
  · simp at h
  · have hak : ak = "assigned_to" := by simpa using List.find?_some ha
    have ham : (ak, av) ∈ body := List.mem_of_find?_eq_some ha
    subst hak
    have hsnone : ∀ kv ∈ body, ¬ kv.1 = "status" := by
      intro kv hkv
      simpa using List.find?_eq_none.mp hs kv hkv
    have hu : u = [("assigned_to", av)] := by cases storeOk <;> simpa using h.symm
    subst hu
    refine ⟨by simp, ?_, ?_, ?_, ?_⟩
    · constructor
      · rintro ⟨v, hv⟩
        simp at hv
      · rintro ⟨kv, hkv, hk⟩
        exact absurd hk (hsnone kv hkv)
    · constructor
      · intro _
        exact ⟨("assigned_to", av), ham, rfl⟩
      · intro _
        exact ⟨av, by simp⟩
    · intro v hv
      simp at hv
    · intro v hv
      simp at hv
      rw [ha, hv]
  · have hsk : sk = "status" := by simpa using List.find?_some hs
    have hsm : (sk, sv) ∈ body := List.mem_of_find?_eq_some hs
    subst hsk
    have hanone : ∀ kv ∈ body, ¬ kv.1 = "assigned_to" := by
      intro kv hkv
      simpa using List.find?_eq_none.mp ha kv hkv
    have hu : u = [("status", sv)] := by cases storeOk <;> simpa using h.symm
    subst hu
    refine ⟨by simp, ?_, ?_, ?_, ?_⟩
    · constructor
      · intro _
        exact ⟨("status", sv), hsm, rfl⟩
      · intro _
        exact ⟨sv, by simp⟩
    · constructor
      · rintro ⟨v, hv⟩
        simp at hv
      · rintro ⟨kv, hkv, hk⟩
        exact absurd hk (hanone kv hkv)
    · intro v hv
      simp at hv
      rw [hs, hv]
    · intro v hv
      simp at hv
  · have hsk : sk = "status" := by simpa using List.find?_some hs
    have hsm : (sk, sv) ∈ body := List.mem_of_find?_eq_some hs
    subst hsk
    have hak : ak = "assigned_to" := by simpa using List.find?_some ha
    have ham : (ak, av) ∈ body := List.mem_of_find?_eq_some ha
    subst hak
    have hu : u = [("status", sv), ("assigned_to", av)] := by
      cases storeOk <;> simpa using h.symm
    subst hu
    refine ⟨by simp, ?_, ?_, ?_, ?_⟩
    · constructor
      · intro _
        exact ⟨("status", sv), hsm, rfl⟩
      · intro _
        exact ⟨sv, by simp⟩
    · constructor
      · intro _
        exact ⟨("assigned_to", av), ham, rfl⟩
      · intro _
        exact ⟨av, by simp⟩
    · intro v hv
      simp at hv
      rw [hs, hv]
    · intro v hv
      simp at hv
      rw [ha, hv]

/-- C10 witness: the written update at a concrete body holding a status
field and an unrecognized extra field. -/
theorem update_issue_only_status_assigned_witness :
    (update_issue ([("status", "Resolved"), ("extra", "x")] : List (String × String))
        true).2 = some [("status", "Resolved")] ∧
    ((∀ kv ∈ ([("status", "Resolved")] : List (String × String)),
        kv.1 = "status" ∨ kv.1 = "assigned_to") ∧
      ((∃ v, ("status", v) ∈ ([("status", "Resolved")] : List (String × String))) ↔
        ∃ kv ∈ ([("status", "Resolved"), ("extra", "x")] : List (String × String)),
          kv.1 = "status") ∧
      ((∃ v, ("assigned_to", v) ∈ ([("status", "Resolved")] : List (String × String))) ↔
        ∃ kv ∈ ([("status", "Resolved"), ("extra", "x")] : List (String × String)),
          kv.1 = "assigned_to") ∧
      (∀ v, ("status", v) ∈ ([("status", "Resolved")] : List (String × String)) →
        ([("status", "Resolved"), ("extra", "x")] : List (String × String)).find?
          (fun kv => kv.1 == "status") = some ("status", v)) ∧
      (∀ v, ("assigned_to", v) ∈ ([("status", "Resolved")] : List (String × String)) →
        ([("status", "Resolved"), ("extra", "x")] : List (String × String)).find?
          (fun kv => kv.1 == "assigned_to") = some ("assigned_to", v))) :=
  ⟨by decide,
    update_issue_only_status_assigned [("status", "Resolved"), ("extra", "x")] true
      [("status", "Resolved")] (by decide)⟩

end MyVoice
